import Mathlib

/-!
Verification of the SmartVisionAI batch enrichment pipeline.

Shallow embedding of the repository's core modules:
  * `src/image_describer.py`   — `ImagesDescriber.add_metadata` (embed strategy)
  * `src/csv_generator.py`     — `CSVGenerator.write_data_to_csv` (ledger strategy)
  * `src/services/chatgpt_responder.py` — `process_photo` (credential read + service call)
  * `src/services/img_metadata_reader.py` — `get_metadata` and its two readers

The file system is modelled as an association list from path strings to file
data.  External collaborators (the IPTC codec, exiftool, the network, the
temp-file allocator) are modelled by per-item oracle fields that say whether
a given primitive step succeeds and what it returns; the repository's own
control flow (try/except/finally ordering, counters, exits) is translated
statement by statement from the Python source.
-/

namespace SmartVisionAI

/-- IPTC metadata fields set by the embed strategy: `object name`,
`caption/abstract`, `keywords`, `by-line` (image_describer.py lines 127-130). -/
structure IPTCFields where
  objectName : Option String
  caption : Option String
  keywords : List String
  byLine : Option String
deriving DecidableEq

/-- Empty container, as built by `IPTCInfo(None)` when the load fails. -/
def emptyIPTC : IPTCFields := ⟨none, none, [], none⟩

/-- Content of one on-disk file: an abstract payload identity plus the parsed
metadata container, if the file carries one. -/
structure FileData where
  payload : Nat
  meta : Option IPTCFields
deriving DecidableEq

/-- File system: association list from absolute path to file content. -/
abbrev FS := List (String × FileData)

def fsLookup : FS → String → Option FileData
  | [], _ => none
  | (q, d) :: rest, p => if q = p then some d else fsLookup rest p

def fsErase : FS → String → FS
  | [], _ => []
  | (q, d) :: rest, p => if q = p then fsErase rest p else (q, d) :: fsErase rest p

def fsInsert (fs : FS) (p : String) (d : FileData) : FS :=
  (p, d) :: fsErase fs p

def fsExists (fs : FS) (p : String) : Bool := (fsLookup fs p).isSome

/-- Path join as used by `os.path.join(dir, name)` for the simple
directory-plus-filename case appearing in both orchestrators. -/
def pjoin (dir name : String) : String := dir ++ "/" ++ name

/-- Python `str.strip()`: drop leading and trailing whitespace.  Implemented
structurally over the character list so that concrete instances compute by
kernel reduction. -/
def pyStrip (s : String) : String :=
  ⟨((s.data.dropWhile Char.isWhitespace).reverse.dropWhile Char.isWhitespace).reverse⟩

/-- Python `str.split('; ')` specialised to the two-character separator used
by the credential store format: scan left to right, splitting at each
non-overlapping occurrence of `';'` followed by `' '`. -/
def splitSemiSpace : List Char → List Char → List (List Char)
  | [], acc => [acc.reverse]
  | [c], acc => [(c :: acc).reverse]
  | c1 :: c2 :: rest, acc =>
    if c1 = ';' ∧ c2 = ' ' then acc.reverse :: splitSemiSpace rest []
    else splitSemiSpace (c2 :: rest) (c1 :: acc)

/-- Python `s.split('; ')` on a string value. -/
def pySplitSemiSpace (s : String) : List String :=
  (splitSemiSpace s.data []).map String.mk

/-! ## Credential store and service call (`src/services/chatgpt_responder.py`) -/

/-- State of the local credential store file `openai_key.txt` at the moment a
given read happens: absent (FileNotFoundError), unreadable (any other error
while reading), or readable with the given contents. -/
inductive KeyStore where
  | missing
  | unreadable
  | content (s : String)
deriving DecidableEq

/-- Key extraction from `process_photo` (chatgpt_responder.py lines 29-42):
`API_KEY = line.split('; ')[1].strip()`.  `none` means the read failed or the
contents had no second `"; "`-separated field, i.e. the code path that calls
`sys.exit(1)`. -/
def readApiKey : KeyStore → Option String
  | .missing => none
  | .unreadable => none
  | .content s =>
    match (pySplitSemiSpace s)[1]? with
    | some k => some (pyStrip k)
    | none => none

/-- Result of one `process_photo` invocation, together with whether the HTTP
request to the service endpoint was actually issued. -/
inductive PhotoResult where
  | exited (code : Nat)
  | responded
deriving DecidableEq

/-- Shallow embedding of `process_photo`: read the credential store; any
failure (missing file, unreadable file, malformed contents) logs and calls
`sys.exit(1)` before the request is built; otherwise the request is sent.
The Bool records whether the network request was made. -/
def process_photo (store : KeyStore) : PhotoResult × Bool :=
  match readApiKey store with
  | none => (.exited 1, false)
  | some _ => (.responded, true)

/-- Raw-response outcome as consumed by the response parser: either the parser
can extract a title, description and keyword list, or the response is
malformed and parsing raises. -/
inductive RawOutcome where
  | parsed (title description : String) (keywords : List String)
  | malformed
deriving DecidableEq

/-- Per-item result of the service-call-plus-parse step. -/
inductive SvcResult where
  | ok (title description : String) (keywords : List String)
  | parseError
  | fatalExit (code : Nat)
deriving DecidableEq

/-- Modelled from the spec: `src/services/response_parser.py` (`parse_response`)
is not present under src/; only its callers are.  Per the spec (§2, §4.3, §4.4)
each per-item invocation calls the Description Client once — that client is
`process_photo`, which is in src/ and whose credential handling is embedded in
`readApiKey` — and then validates the raw response, raising a per-item
ParseError on a malformed response.  A credential failure inside
`process_photo` raises SystemExit instead. -/
def parse_response (store : KeyStore) (raw : RawOutcome) : SvcResult :=
  match readApiKey store with
  | none => .fatalExit 1
  | some _ =>
    match raw with
    | .parsed t d k => .ok t d k
    | .malformed => .parseError

/-! ## Caption extraction (`src/services/img_metadata_reader.py`) -/

/-- Outcome of the IPTC read attempt: `IPTCInfo(path)` raised (the reader
catches it and returns None), or it produced the `caption/abstract` field
value (which may itself be absent). -/
inductive IptcRead where
  | err
  | val (v : Option String)
deriving DecidableEq

/-- Outcome of the exiftool-plus-regex XMP read attempt: the subprocess or
regex machinery raised (caught, returns None), the default-language
`rdf:li` pattern found no match, or it matched with the given captured
group (before stripping). -/
inductive XmpRead where
  | err
  | noMatch
  | matched (s : String)
deriving DecidableEq

/-- Embedding of `read_iptc_data`: return `info['caption/abstract']`, or None
when `IPTCInfo` raises (the exception is caught locally and logged). -/
def read_iptc_data : IptcRead → Option String
  | .err => none
  | .val v => v

/-- Embedding of `read_xmp_data`: return the stripped captured group of the
default-language `rdf:li` match, None when there is no match, and None when
anything raises (caught locally and logged). -/
def read_xmp_data : XmpRead → Option String
  | .err => none
  | .noMatch => none
  | .matched s => some (pyStrip s)

/-- Python `a or b` on an optional string: None and the empty string are
falsy, anything else is returned as-is. -/
def pyOr (a b : Option String) : Option String :=
  match a with
  | none => b
  | some s => if s.isEmpty then b else some s

/-- Embedding of `get_metadata`: evaluate both readers (IPTC first, XMP
second) and combine with Python `or`. -/
def get_metadata (i : IptcRead) (x : XmpRead) : Option String :=
  pyOr (read_iptc_data i) (read_xmp_data x)

/-! ## Embed strategy (`ImagesDescriber.add_metadata`, image_describer.py) -/

/-- Oracle for the fallible primitive steps of one loop iteration.  Each flag
says whether that step raises; `store` is the credential-store state at the
moment this item's service call reads it; `raw` is what the network returns. -/
structure ItemEnv where
  openFails : Bool
  tmpCreateFails : Bool
  copyFails : Bool
  iptcLoadFails : Bool
  store : KeyStore
  raw : RawOutcome
  saveFails : Bool
  moveFails : Bool
deriving DecidableEq

/-- One discovered file: its name, the fresh path handed out by
`tempfile.NamedTemporaryFile` for this iteration, and the step oracle. -/
structure Item where
  name : String
  tempPath : String
  env : ItemEnv
deriving DecidableEq

/-- How the try-block of one iteration ends: it runs to the end, it raises an
Exception (caught by `except Exception`), or it raises SystemExit
(`sys.exit` inside `process_photo` — not an Exception, so not caught). -/
inductive TryOutcome where
  | completed
  | raisedExc
  | raisedExit (code : Nat)
deriving DecidableEq

/-- State threaded through the per-item loop of `add_metadata`: the file
system, the current binding of the function-local variable `temp_image_path`
(`none` = not yet assigned in this call), the `processed_count` counter and
the number of service calls issued so far. -/
structure LoopState where
  fs : FS
  tempVar : Option String
  processed : Nat
  svcCalls : Nat
deriving DecidableEq

/-- The try-block of one iteration (image_describer.py lines 96-140), from
`open(image_path, 'rb')` up to `successfully_processed = True`.  Returns the
file system, the binding of `temp_image_path`, the number of service calls
made, and how the block ended.

Steps, in source order: open the source file; create the named temporary
file (this binds `temp_image_path` and creates an empty file); copy the
source bytes onto the temp file; load the IPTC container from the temp file
(falling back to an empty container when the load raises — caught locally);
read the existing caption with `get_metadata` (total, never raises); call
`parse_response`; set the four metadata fields; `info.save_as(temp)`;
`shutil.move(temp, destination)`. -/
def runTry (author : Option String) (srcPath destPath : String) (it : Item)
    (fs : FS) (tempVar : Option String) : FS × Option String × Nat × TryOutcome :=
  match fsLookup fs srcPath with
  | none => (fs, tempVar, 0, .raisedExc)
  | some srcData =>
    if it.env.openFails then (fs, tempVar, 0, .raisedExc)
    else if it.env.tmpCreateFails then (fs, tempVar, 0, .raisedExc)
    else
      let fs1 := fsInsert fs it.tempPath ⟨0, none⟩
      if it.env.copyFails then (fs1, some it.tempPath, 0, .raisedExc)
      else
        let fs2 := fsInsert fs1 it.tempPath srcData
        let info0 := if it.env.iptcLoadFails then emptyIPTC
                     else srcData.meta.getD emptyIPTC
        match parse_response it.env.store it.env.raw with
        | .fatalExit c => (fs2, some it.tempPath, 1, .raisedExit c)
        | .parseError => (fs2, some it.tempPath, 1, .raisedExc)
        | .ok t d k =>
          let newInfo : IPTCFields :=
            { info0 with objectName := some t, caption := some d,
                         keywords := k, byLine := author }
          if it.env.saveFails then (fs2, some it.tempPath, 1, .raisedExc)
          else
            let fs3 := fsInsert fs2 it.tempPath ⟨srcData.payload, some newInfo⟩
            if it.env.moveFails then (fs3, some it.tempPath, 1, .raisedExc)
            else
              let fs4 := fsInsert (fsErase fs3 it.tempPath) destPath
                           ⟨srcData.payload, some newInfo⟩
              (fs4, some it.tempPath, 1, .completed)

/-- Embedding of `ImagesDescriber.remove_backup_file`: given the destination
path, delete `destination + '~'` if it exists; a None or blank filename is
rejected with a log message and nothing is removed. -/
def remove_backup_file (fs : FS) (filename : String) : FS :=
  if pyStrip filename = "" then fs else fsErase fs (filename ++ "~")

/-- How one loop iteration ends for the enclosing loop: continue normally
(success or caught per-item error), propagate SystemExit, or propagate an
uncaught exception raised inside the `finally` block. -/
inductive StepExit where
  | normal
  | sysExit (code : Nat)
  | uncaught
deriving DecidableEq

/-- The temp-file cleanup in the `finally` block: `if temp_image_path and
os.path.exists(temp_image_path): os.remove(temp_image_path)`. -/
def cleanupTemp (fs : FS) (tp : String) : FS :=
  if !tp.isEmpty && fsExists fs tp then fsErase fs tp else fs

/-- The `finally` block and the statements after it (image_describer.py lines
144-154), applied to the try-block's result: `remove_backup_file(destination)`
first, then the temp cleanup — referencing `temp_image_path` when it was never
assigned in this call raises an uncaught UnboundLocalError — then, outside the
try statement, `if successfully_processed and image_path != destination_path:
os.remove(image_path)`. -/
def finishItem (srcPath destPath : String) (s : LoopState)
    (res : FS × Option String × Nat × TryOutcome) : LoopState × StepExit :=
  match res with
  | (fs1, tv1, calls, outcome) =>
    let fs2 := remove_backup_file fs1 destPath
    match tv1 with
    | none =>
      ({ fs := fs2, tempVar := none, processed := s.processed,
         svcCalls := s.svcCalls + calls }, .uncaught)
    | some tp =>
      let fs3 := cleanupTemp fs2 tp
      match outcome with
      | .raisedExit c =>
        ({ fs := fs3, tempVar := some tp, processed := s.processed,
           svcCalls := s.svcCalls + calls }, .sysExit c)
      | .raisedExc =>
        ({ fs := fs3, tempVar := some tp, processed := s.processed,
           svcCalls := s.svcCalls + calls }, .normal)
      | .completed =>
        let fs4 := if srcPath ≠ destPath then fsErase fs3 srcPath else fs3
        ({ fs := fs4, tempVar := some tp, processed := s.processed + 1,
           svcCalls := s.svcCalls + calls }, .normal)

/-- One full iteration of the per-item loop (image_describer.py lines 82-154):
the try-block, then the `finally` block and the conditional source removal. -/
def runItem (author : Option String) (srcDir dstDir : String) (it : Item)
    (s : LoopState) : LoopState × StepExit :=
  finishItem (pjoin srcDir it.name) (pjoin dstDir it.name) s
    (runTry author (pjoin srcDir it.name) (pjoin dstDir it.name) it s.fs s.tempVar)

/-- Result of running the per-item loop to its end or to an abort. -/
inductive LoopResult where
  | done (s : LoopState)
  | abortedExit (code : Nat) (s : LoopState)
  | abortedCrash (s : LoopState)
deriving DecidableEq

/-- The per-item loop: iterate `runItem`; a SystemExit or an uncaught
exception aborts the remaining items. -/
def runLoop (author : Option String) (srcDir dstDir : String) :
    List Item → LoopState → LoopResult
  | [], s => .done s
  | it :: rest, s =>
    match runItem author srcDir dstDir it s with
    | (s1, .normal) => runLoop author srcDir dstDir rest s1
    | (s1, .sysExit c) => .abortedExit c s1
    | (s1, .uncaught) => .abortedCrash s1

/-- How a whole batch run terminates: the summary is reported via
`execution_timer` with the given counts, or the process exits with a code,
or an uncaught exception crashes the worker. -/
inductive BatchExit where
  | reported (processed unprocessed : Nat)
  | exited (code : Nat)
  | crashed
deriving DecidableEq

/-- Result of one batch: final file system, number of service calls issued,
and the way the run terminated. -/
structure BatchResult where
  fs : FS
  svcCalls : Nat
  exit : BatchExit
deriving DecidableEq

/-- Embedding of `ImagesDescriber.add_metadata`: if the filtered file list is
empty, log and `sys.exit(1)` before anything else; otherwise run the per-item
loop and, if it completes, compute `unprocessed_count = total - processed`
and report both counts through `execution_timer`. -/
def add_metadata (author : Option String) (srcDir dstDir : String)
    (items : List Item) (fs : FS) : BatchResult :=
  if items.isEmpty then { fs := fs, svcCalls := 0, exit := .exited 1 }
  else
    match runLoop author srcDir dstDir items ⟨fs, none, 0, 0⟩ with
    | .done s =>
      { fs := s.fs, svcCalls := s.svcCalls,
        exit := .reported s.processed (items.length - s.processed) }
    | .abortedExit c s => { fs := s.fs, svcCalls := s.svcCalls, exit := .exited c }
    | .abortedCrash s => { fs := s.fs, svcCalls := s.svcCalls, exit := .crashed }

/-! ## Ledger strategy (`CSVGenerator.write_data_to_csv`, csv_generator.py) -/

/-- One discovered file under the ledger strategy: its name, whether opening
it raises, the credential-store state at its service call, and the raw
response. -/
structure CsvItem where
  name : String
  openFails : Bool
  store : KeyStore
  raw : RawOutcome
deriving DecidableEq

/-- One data row, as written by `writer.writerow([image_name, title,
description, keywords_str])` with `keywords_str = ','.join(keywords)`. -/
def csvRow (name title description : String) (keywords : List String) :
    List String :=
  [name, title, description, String.intercalate "," keywords]

/-- The CSV header row (csv_generator.py line 84). -/
def csvHeader : List String := ["image_name", "title", "description", "keywords"]

/-- Specification of which items contribute a ledger row: one row per item
whose image opens and whose service call and response parse succeed. -/
def csvRowOf (it : CsvItem) : Option (List String) :=
  if it.openFails then none
  else
    match parse_response it.store it.raw with
    | .ok t d k => some (csvRow it.name t d k)
    | _ => none

/-- The per-item loop of `write_data_to_csv` (lines 87-116): per item, open
the image (failure caught by the inner `except Exception`), read the caption
(total), call `parse_response`; on success append one row and increment the
counter; a ParseError is caught and the loop continues; a SystemExit
propagates, ending the run with the rows written so far.  Returns the rows,
the counter, the number of service calls, and `some code` when SystemExit
escaped. -/
def runCsvLoop : List CsvItem → List (List String) → Nat → Nat →
    List (List String) × Nat × Nat × Option Nat
  | [], rows, processed, calls => (rows, processed, calls, none)
  | it :: rest, rows, processed, calls =>
    if it.openFails then runCsvLoop rest rows processed calls
    else
      match parse_response it.store it.raw with
      | .fatalExit c => (rows, processed, calls + 1, some c)
      | .parseError => runCsvLoop rest rows processed (calls + 1)
      | .ok t d k =>
        runCsvLoop rest (rows ++ [csvRow it.name t d k]) (processed + 1) (calls + 1)

/-- Termination of a ledger batch: stats reported, process exit, or the
early `return` taken by the outer `except Exception` when the CSV file
cannot be created (no stats are reported on that path). -/
inductive CsvExit where
  | reported (processed unprocessed : Nat)
  | exited (code : Nat)
  | returnedEarly
deriving DecidableEq

/-- Result of one ledger batch: the image file system (returned unchanged —
this strategy performs no image writes), the CSV contents (`none` when the
file was never created), service calls, and the termination mode. -/
structure CsvResult where
  fs : FS
  rows : Option (List (List String))
  svcCalls : Nat
  exit : CsvExit
deriving DecidableEq

/-- Embedding of `CSVGenerator.write_data_to_csv`: empty discovery exits with
status 1 before the CSV file is created; a failure opening the CSV file is
caught by the outer handler, which logs and returns; otherwise the header row
is written once and the per-item loop runs. -/
def write_data_to_csv (items : List CsvItem) (csvOpenFails : Bool) (fs : FS) :
    CsvResult :=
  if items.isEmpty then { fs := fs, rows := none, svcCalls := 0, exit := .exited 1 }
  else if csvOpenFails then
    { fs := fs, rows := none, svcCalls := 0, exit := .returnedEarly }
  else
    match runCsvLoop items [csvHeader] 0 0 with
    | (rows, _, calls, some c) =>
      { fs := fs, rows := some rows, svcCalls := calls, exit := .exited c }
    | (rows, processed, calls, none) =>
      { fs := fs, rows := some rows, svcCalls := calls,
        exit := .reported processed (items.length - processed) }

/-! ## Helper lemmas about the file-system operations -/

@[simp] theorem fsLookup_erase_self (fs : FS) (p : String) :
    fsLookup (fsErase fs p) p = none := by
  induction fs with
  | nil => rfl
  | cons hd tl ih =>
    obtain ⟨q, d⟩ := hd
    by_cases h : q = p
    · simp [fsErase, h, ih]
    · simp [fsErase, fsLookup, h, ih]

theorem fsLookup_erase_ne (fs : FS) {p q : String} (h : p ≠ q) :
    fsLookup (fsErase fs p) q = fsLookup fs q := by
  induction fs with
  | nil => rfl
  | cons hd tl ih =>
    obtain ⟨r, d⟩ := hd
    by_cases hr : r = p
    · subst hr
      simp [fsErase, fsLookup, h, ih]
    · simp [fsErase, fsLookup, hr, ih]

@[simp] theorem fsLookup_insert_self (fs : FS) (p : String) (d : FileData) :
    fsLookup (fsInsert fs p d) p = some d := by
  simp [fsInsert, fsLookup]

theorem fsLookup_insert_ne (fs : FS) {p q : String} (d : FileData) (h : p ≠ q) :
    fsLookup (fsInsert fs p d) q = fsLookup fs q := by
  simp [fsInsert, fsLookup, fun hq => h hq, fsLookup_erase_ne fs h]

theorem fsLookup_erase_none {fs : FS} {q : String} (p : String)
    (h : fsLookup fs q = none) : fsLookup (fsErase fs p) q = none := by
  by_cases hpq : p = q
  · subst hpq; exact fsLookup_erase_self fs p
  · rw [fsLookup_erase_ne fs hpq]; exact h

theorem remove_backup_lookup_ne {dst q : String} (fs : FS)
    (h : q ≠ dst ++ "~") : fsLookup (remove_backup_file fs dst) q = fsLookup fs q := by
  unfold remove_backup_file
  split
  · rfl
  · exact fsLookup_erase_ne fs (Ne.symm h)

theorem remove_backup_lookup_none {q : String} (fs : FS) (dst : String)
    (h : fsLookup fs q = none) : fsLookup (remove_backup_file fs dst) q = none := by
  unfold remove_backup_file
  split
  · exact h
  · exact fsLookup_erase_none _ h

theorem remove_backup_lookup_self (fs : FS) {dst : String}
    (h : pyStrip dst ≠ "") :
    fsLookup (remove_backup_file fs dst) (dst ++ "~") = none := by
  unfold remove_backup_file
  rw [if_neg h]
  exact fsLookup_erase_self fs _

theorem cleanupTemp_lookup_self (fs : FS) {tp : String} (h : tp ≠ "") :
    fsLookup (cleanupTemp fs tp) tp = none := by
  unfold cleanupTemp
  by_cases he : fsExists fs tp
  · have hne : tp.isEmpty = false := by
      cases hie : tp.isEmpty
      · rfl
      · exact absurd ((String.isEmpty_iff tp).mp hie) h
    rw [hne]
    simp [he]
  · have : fsLookup fs tp = none := by
      unfold fsExists at he
      cases hl : fsLookup fs tp
      · rfl
      · rw [hl] at he; simp at he
    split
    · exact fsLookup_erase_self fs tp
    · exact this

theorem cleanupTemp_lookup_none {fs : FS} {q : String} (tp : String)
    (h : fsLookup fs q = none) : fsLookup (cleanupTemp fs tp) q = none := by
  unfold cleanupTemp
  split
  · exact fsLookup_erase_none _ h
  · exact h

theorem cleanupTemp_lookup_ne {tp q : String} (fs : FS) (h : tp ≠ q) :
    fsLookup (cleanupTemp fs tp) q = fsLookup fs q := by
  unfold cleanupTemp
  split
  · exact fsLookup_erase_ne fs h
  · rfl

theorem fsErase_erase_self (fs : FS) (p : String) :
    fsErase (fsErase fs p) p = fsErase fs p := by
  induction fs with
  | nil => rfl
  | cons hd tl ih =>
    obtain ⟨q, d⟩ := hd
    by_cases h : q = p
    · simp [fsErase, h, ih]
    · simp [fsErase, h, ih]

theorem fsLookup_insert_insert (fs : FS) (p : String) (a b : FileData) :
    fsInsert (fsInsert fs p a) p b = fsInsert fs p b := by
  simp [fsInsert, fsErase, fsErase_erase_self]

/-! ## Per-item characterization lemmas for the embed strategy -/

theorem finishItem_failure (src dst : String) (it : Item) (s : LoopState)
    (fs1 : FS) (tv1 : Option String) (calls : Nat) (outcome : TryOutcome)
    (h0 : tv1 = some it.tempPath ∨ (fs1 = s.fs ∧ tv1 = s.tempVar))
    (h1 : ∀ q, q ≠ it.tempPath → fsLookup fs1 q = fsLookup s.fs q)
    (h2 : outcome ≠ TryOutcome.completed)
    (htv : ∀ p, s.tempVar = some p → fsLookup s.fs p = none)
    (hfresh : fsLookup s.fs it.tempPath = none)
    (htpne : it.tempPath ≠ "")
    (hts : it.tempPath ≠ src)
    (htd : it.tempPath ≠ dst)
    (hsb : src ≠ dst ++ "~")
    (hdb : dst ≠ dst ++ "~") :
    (finishItem src dst s (fs1, tv1, calls, outcome)).1.processed = s.processed ∧
    fsLookup (finishItem src dst s (fs1, tv1, calls, outcome)).1.fs it.tempPath = none ∧
    fsLookup (finishItem src dst s (fs1, tv1, calls, outcome)).1.fs src = fsLookup s.fs src ∧
    fsLookup (finishItem src dst s (fs1, tv1, calls, outcome)).1.fs dst = fsLookup s.fs dst := by
  rcases h0 with h0 | ⟨hfs, htv1⟩
  · subst h0
    cases outcome with
    | completed => exact absurd rfl h2
    | raisedExc =>
      refine ⟨rfl, ?_, ?_, ?_⟩
      · exact cleanupTemp_lookup_self _ htpne
      · show fsLookup (cleanupTemp (remove_backup_file fs1 dst) it.tempPath) src = _
        rw [cleanupTemp_lookup_ne _ hts, remove_backup_lookup_ne _ hsb,
          h1 src (Ne.symm hts)]
      · show fsLookup (cleanupTemp (remove_backup_file fs1 dst) it.tempPath) dst = _
        rw [cleanupTemp_lookup_ne _ htd, remove_backup_lookup_ne _ hdb,
          h1 dst (Ne.symm htd)]
    | raisedExit c =>
      refine ⟨rfl, ?_, ?_, ?_⟩
      · exact cleanupTemp_lookup_self _ htpne
      · show fsLookup (cleanupTemp (remove_backup_file fs1 dst) it.tempPath) src = _
        rw [cleanupTemp_lookup_ne _ hts, remove_backup_lookup_ne _ hsb,
          h1 src (Ne.symm hts)]
      · show fsLookup (cleanupTemp (remove_backup_file fs1 dst) it.tempPath) dst = _
        rw [cleanupTemp_lookup_ne _ htd, remove_backup_lookup_ne _ hdb,
          h1 dst (Ne.symm htd)]
  · subst hfs
    subst htv1
    cases htvs : s.tempVar with
    | none =>
      refine ⟨rfl, ?_, ?_, ?_⟩
      · exact remove_backup_lookup_none s.fs dst hfresh
      · exact remove_backup_lookup_ne s.fs hsb
      · exact remove_backup_lookup_ne s.fs hdb
    | some p =>
      have hp : fsLookup s.fs p = none := htv p htvs
      cases outcome with
      | completed => exact absurd rfl h2
      | raisedExc =>
        refine ⟨rfl, ?_, ?_, ?_⟩
        · exact cleanupTemp_lookup_none p (remove_backup_lookup_none s.fs dst hfresh)
        · show fsLookup (cleanupTemp (remove_backup_file s.fs dst) p) src
            = fsLookup s.fs src
          by_cases hps : p = src
          · subst hps
            rw [hp]
            exact cleanupTemp_lookup_none p (remove_backup_lookup_none s.fs dst hp)
          · rw [cleanupTemp_lookup_ne _ hps, remove_backup_lookup_ne _ hsb]
        · show fsLookup (cleanupTemp (remove_backup_file s.fs dst) p) dst
            = fsLookup s.fs dst
          by_cases hpd : p = dst
          · rw [← hpd, hp]
            exact cleanupTemp_lookup_none p (remove_backup_lookup_none s.fs p hp)
          · rw [cleanupTemp_lookup_ne _ hpd, remove_backup_lookup_ne _ hdb]
      | raisedExit c =>
        refine ⟨rfl, ?_, ?_, ?_⟩
        · exact cleanupTemp_lookup_none p (remove_backup_lookup_none s.fs dst hfresh)
        · show fsLookup (cleanupTemp (remove_backup_file s.fs dst) p) src
            = fsLookup s.fs src
          by_cases hps : p = src
          · subst hps
            rw [hp]
            exact cleanupTemp_lookup_none p (remove_backup_lookup_none s.fs dst hp)
          · rw [cleanupTemp_lookup_ne _ hps, remove_backup_lookup_ne _ hsb]
        · show fsLookup (cleanupTemp (remove_backup_file s.fs dst) p) dst
            = fsLookup s.fs dst
          by_cases hpd : p = dst
          · rw [← hpd, hp]
            exact cleanupTemp_lookup_none p (remove_backup_lookup_none s.fs p hp)
          · rw [cleanupTemp_lookup_ne _ hpd, remove_backup_lookup_ne _ hdb]

theorem finishItem_success (src dst : String) (it : Item) (s : LoopState)
    (fs1 : FS) (calls : Nat) (newData : FileData)
    (hdst : fsLookup fs1 dst = some newData)
    (htmp1 : fsLookup fs1 it.tempPath = none)
    (htd : it.tempPath ≠ dst)
    (hdb : dst ≠ dst ++ "~") :
    (finishItem src dst s (fs1, some it.tempPath, calls, .completed)).1.processed
      = s.processed + 1 ∧
    fsLookup (finishItem src dst s
      (fs1, some it.tempPath, calls, .completed)).1.fs it.tempPath = none ∧
    fsLookup (finishItem src dst s
      (fs1, some it.tempPath, calls, .completed)).1.fs dst = some newData ∧
    (src ≠ dst → fsLookup (finishItem src dst s
      (fs1, some it.tempPath, calls, .completed)).1.fs src = none) := by
  have h2 : fsLookup (remove_backup_file fs1 dst) it.tempPath = none :=
    remove_backup_lookup_none fs1 dst htmp1
  have h3 : fsLookup (cleanupTemp (remove_backup_file fs1 dst) it.tempPath)
      it.tempPath = none := cleanupTemp_lookup_none _ h2
  have h2d : fsLookup (remove_backup_file fs1 dst) dst = some newData := by
    rw [remove_backup_lookup_ne _ hdb]; exact hdst
  have h3d : fsLookup (cleanupTemp (remove_backup_file fs1 dst) it.tempPath)
      dst = some newData := by
    rw [cleanupTemp_lookup_ne _ htd]; exact h2d
  refine ⟨rfl, ?_, ?_, ?_⟩
  · show fsLookup (if src ≠ dst
        then fsErase (cleanupTemp (remove_backup_file fs1 dst) it.tempPath) src
        else cleanupTemp (remove_backup_file fs1 dst) it.tempPath) it.tempPath = none
    split
    · exact fsLookup_erase_none _ h3
    · exact h3
  · show fsLookup (if src ≠ dst
        then fsErase (cleanupTemp (remove_backup_file fs1 dst) it.tempPath) src
        else cleanupTemp (remove_backup_file fs1 dst) it.tempPath) dst = some newData
    split
    · next hne => rw [fsLookup_erase_ne _ hne]; exact h3d
    · exact h3d
  · intro hne
    show fsLookup (if src ≠ dst
        then fsErase (cleanupTemp (remove_backup_file fs1 dst) it.tempPath) src
        else cleanupTemp (remove_backup_file fs1 dst) it.tempPath) src = none
    rw [if_pos hne]
    exact fsLookup_erase_self _ _

theorem parse_response_fatal {store : KeyStore} (raw : RawOutcome)
    (hk : readApiKey store = none) :
    parse_response store raw = .fatalExit 1 := by
  simp [parse_response, hk]

theorem parse_response_ok_key {store : KeyStore} {key : String}
    (hk : readApiKey store = some key) (t d : String) (k : List String) :
    parse_response store (.parsed t d k) = .ok t d k := by
  simp [parse_response, hk]

theorem parse_response_malformed_key {store : KeyStore} {key : String}
    (hk : readApiKey store = some key) :
    parse_response store .malformed = .parseError := by
  simp [parse_response, hk]

theorem item_step_master (author : Option String) (src dst : String) (it : Item)
    (s : LoopState)
    (htv : ∀ p, s.tempVar = some p → fsLookup s.fs p = none)
    (hfresh : fsLookup s.fs it.tempPath = none)
    (htpne : it.tempPath ≠ "")
    (hts : it.tempPath ≠ src)
    (htd : it.tempPath ≠ dst)
    (hsb : src ≠ dst ++ "~")
    (hdb : dst ≠ dst ++ "~") :
    fsLookup (finishItem src dst s
      (runTry author src dst it s.fs s.tempVar)).1.fs it.tempPath = none ∧
    ((finishItem src dst s (runTry author src dst it s.fs s.tempVar)).1.processed
        = s.processed →
      fsLookup (finishItem src dst s
        (runTry author src dst it s.fs s.tempVar)).1.fs src = fsLookup s.fs src ∧
      fsLookup (finishItem src dst s
        (runTry author src dst it s.fs s.tempVar)).1.fs dst = fsLookup s.fs dst) ∧
    (∀ t d k, it.env.raw = RawOutcome.parsed t d k →
      (finishItem src dst s (runTry author src dst it s.fs s.tempVar)).1.processed
        = s.processed + 1 →
      ∀ fdata, fsLookup s.fs src = some fdata →
        fsLookup (finishItem src dst s
          (runTry author src dst it s.fs s.tempVar)).1.fs dst
          = some ⟨fdata.payload, some ⟨some t, some d, k, author⟩⟩ ∧
        (src ≠ dst → fsLookup (finishItem src dst s
          (runTry author src dst it s.fs s.tempVar)).1.fs src = none)) := by
  cases hsrcL : fsLookup s.fs src with
  | none =>
    have hrt : runTry author src dst it s.fs s.tempVar
        = (s.fs, s.tempVar, 0, .raisedExc) := by
      simp [runTry, hsrcL]
    rw [hrt]
    have hF := finishItem_failure src dst it s s.fs s.tempVar 0 .raisedExc
      (Or.inr ⟨rfl, rfl⟩) (fun q _ => rfl) (by simp) htv hfresh htpne hts htd hsb hdb
    rw [hsrcL] at hF
    refine ⟨hF.2.1, fun _ => ⟨hF.2.2.1, hF.2.2.2⟩, ?_⟩
    intro t d k _ _ fdata hf
    simp at hf
  | some fdata0 =>
    by_cases ho : it.env.openFails
    · have hrt : runTry author src dst it s.fs s.tempVar
          = (s.fs, s.tempVar, 0, .raisedExc) := by
        simp [runTry, hsrcL, ho]
      rw [hrt]
      have hF := finishItem_failure src dst it s s.fs s.tempVar 0 .raisedExc
        (Or.inr ⟨rfl, rfl⟩) (fun q _ => rfl) (by simp) htv hfresh htpne hts htd hsb hdb
      rw [hsrcL] at hF
      refine ⟨hF.2.1, fun _ => ⟨hF.2.2.1, hF.2.2.2⟩, ?_⟩
      intro t d k _ hp fdata _
      rw [hF.1] at hp
      omega
    · by_cases htc : it.env.tmpCreateFails
      · have hrt : runTry author src dst it s.fs s.tempVar
            = (s.fs, s.tempVar, 0, .raisedExc) := by
          simp [runTry, hsrcL, ho, htc]
        rw [hrt]
        have hF := finishItem_failure src dst it s s.fs s.tempVar 0 .raisedExc
          (Or.inr ⟨rfl, rfl⟩) (fun q _ => rfl) (by simp) htv hfresh htpne hts htd hsb hdb
        rw [hsrcL] at hF
        refine ⟨hF.2.1, fun _ => ⟨hF.2.2.1, hF.2.2.2⟩, ?_⟩
        intro t d k _ hp fdata _
        rw [hF.1] at hp
        omega
      · by_cases hcp : it.env.copyFails
        · have hrt : runTry author src dst it s.fs s.tempVar
              = (fsInsert s.fs it.tempPath ⟨0, none⟩, some it.tempPath, 0,
                 .raisedExc) := by
            simp [runTry, hsrcL, ho, htc, hcp]
          rw [hrt]
          have hF := finishItem_failure src dst it s
            (fsInsert s.fs it.tempPath ⟨0, none⟩) (some it.tempPath) 0 .raisedExc
            (Or.inl rfl)
            (fun q hq => fsLookup_insert_ne s.fs _ (Ne.symm hq))
            (by simp) htv hfresh htpne hts htd hsb hdb
          rw [hsrcL] at hF
          refine ⟨hF.2.1, fun _ => ⟨hF.2.2.1, hF.2.2.2⟩, ?_⟩
          intro t d k _ hp fdata _
          rw [hF.1] at hp
          omega
        · cases hk : readApiKey it.env.store with
          | none =>
            have hrt : runTry author src dst it s.fs s.tempVar
                = (fsInsert s.fs it.tempPath fdata0, some it.tempPath, 1,
                   .raisedExit 1) := by
              simp [runTry, hsrcL, ho, htc, hcp, parse_response_fatal _ hk,
                fsLookup_insert_insert]
            rw [hrt]
            have hF := finishItem_failure src dst it s
              (fsInsert s.fs it.tempPath fdata0) (some it.tempPath) 1 (.raisedExit 1)
              (Or.inl rfl)
              (fun q hq => fsLookup_insert_ne s.fs _ (Ne.symm hq))
              (by simp) htv hfresh htpne hts htd hsb hdb
            rw [hsrcL] at hF
            refine ⟨hF.2.1, fun _ => ⟨hF.2.2.1, hF.2.2.2⟩, ?_⟩
            intro t d k _ hp fdata _
            rw [hF.1] at hp
            omega
          | some key =>
            cases hraw0 : it.env.raw with
            | malformed =>
              have hrt : runTry author src dst it s.fs s.tempVar
                  = (fsInsert s.fs it.tempPath fdata0, some it.tempPath, 1,
                     .raisedExc) := by
                simp [runTry, hsrcL, ho, htc, hcp, hraw0,
                  parse_response_malformed_key hk, fsLookup_insert_insert]
              rw [hrt]
              have hF := finishItem_failure src dst it s
                (fsInsert s.fs it.tempPath fdata0) (some it.tempPath) 1 .raisedExc
                (Or.inl rfl)
                (fun q hq => fsLookup_insert_ne s.fs _ (Ne.symm hq))
                (by simp) htv hfresh htpne hts htd hsb hdb
              rw [hsrcL] at hF
              refine ⟨hF.2.1, fun _ => ⟨hF.2.2.1, hF.2.2.2⟩, ?_⟩
              intro t d k hraw _ fdata _
              simp at hraw
            | parsed t0 d0 k0 =>
              by_cases hsv : it.env.saveFails
              · have hrt : runTry author src dst it s.fs s.tempVar
                    = (fsInsert s.fs it.tempPath fdata0, some it.tempPath, 1,
                       .raisedExc) := by
                  simp [runTry, hsrcL, ho, htc, hcp, hraw0, hsv,
                    parse_response_ok_key hk, fsLookup_insert_insert]
                rw [hrt]
                have hF := finishItem_failure src dst it s
                  (fsInsert s.fs it.tempPath fdata0) (some it.tempPath) 1 .raisedExc
                  (Or.inl rfl)
                  (fun q hq => fsLookup_insert_ne s.fs _ (Ne.symm hq))
                  (by simp) htv hfresh htpne hts htd hsb hdb
                rw [hsrcL] at hF
                refine ⟨hF.2.1, fun _ => ⟨hF.2.2.1, hF.2.2.2⟩, ?_⟩
                intro t d k _ hp fdata _
                rw [hF.1] at hp
                omega
              · by_cases hmv : it.env.moveFails
                · have hrt : runTry author src dst it s.fs s.tempVar
                      = (fsInsert s.fs it.tempPath
                          ⟨fdata0.payload, some ⟨some t0, some d0, k0, author⟩⟩,
                         some it.tempPath, 1, .raisedExc) := by
                    simp [runTry, hsrcL, ho, htc, hcp, hraw0, hsv, hmv,
                      parse_response_ok_key hk, fsLookup_insert_insert]
                  rw [hrt]
                  have hF := finishItem_failure src dst it s
                    (fsInsert s.fs it.tempPath
                      ⟨fdata0.payload, some ⟨some t0, some d0, k0, author⟩⟩)
                    (some it.tempPath) 1 .raisedExc
                    (Or.inl rfl)
                    (fun q hq => fsLookup_insert_ne s.fs _ (Ne.symm hq))
                    (by simp) htv hfresh htpne hts htd hsb hdb
                  rw [hsrcL] at hF
                  refine ⟨hF.2.1, fun _ => ⟨hF.2.2.1, hF.2.2.2⟩, ?_⟩
                  intro t d k _ hp fdata _
                  rw [hF.1] at hp
                  omega
                · have hrt : runTry author src dst it s.fs s.tempVar
                      = (fsInsert (fsErase (fsInsert s.fs it.tempPath
                            ⟨fdata0.payload, some ⟨some t0, some d0, k0, author⟩⟩)
                            it.tempPath) dst
                          ⟨fdata0.payload, some ⟨some t0, some d0, k0, author⟩⟩,
                         some it.tempPath, 1, .completed) := by
                    simp [runTry, hsrcL, ho, htc, hcp, hraw0, hsv, hmv,
                      parse_response_ok_key hk, fsLookup_insert_insert]
                  rw [hrt]
                  have htmp1 : fsLookup (fsInsert (fsErase (fsInsert s.fs it.tempPath
                      ⟨fdata0.payload, some ⟨some t0, some d0, k0, author⟩⟩)
                      it.tempPath) dst
                      ⟨fdata0.payload, some ⟨some t0, some d0, k0, author⟩⟩)
                      it.tempPath = none := by
                    rw [fsLookup_insert_ne _ _ (Ne.symm htd)]
                    exact fsLookup_erase_self _ _
                  have hF := finishItem_success src dst it s
                    (fsInsert (fsErase (fsInsert s.fs it.tempPath
                      ⟨fdata0.payload, some ⟨some t0, some d0, k0, author⟩⟩)
                      it.tempPath) dst
                      ⟨fdata0.payload, some ⟨some t0, some d0, k0, author⟩⟩) 1
                    ⟨fdata0.payload, some ⟨some t0, some d0, k0, author⟩⟩
                    (fsLookup_insert_self _ _ _) htmp1 htd hdb
                  refine ⟨hF.2.1, fun hp => ?_, ?_⟩
                  · rw [hF.1] at hp
                    omega
                  · intro t d k hraw _ fdata hf
                    injection hraw with ht hd hk2
                    subst ht
                    subst hd
                    subst hk2
                    injection hf with hf0
                    subst hf0
                    exact ⟨hF.2.2.1, hF.2.2.2⟩

/-! ## Loop-level lemmas -/

theorem finishItem_processed_cases (src dst : String) (s : LoopState)
    (res : FS × Option String × Nat × TryOutcome) :
    (finishItem src dst s res).1.processed = s.processed ∨
    (finishItem src dst s res).1.processed = s.processed + 1 := by
  rcases res with ⟨fs1, tv1, calls, outcome⟩
  cases tv1 <;> cases outcome <;> simp [finishItem]

theorem runItem_processed_cases (author : Option String) (srcDir dstDir : String)
    (it : Item) (s : LoopState) :
    (runItem author srcDir dstDir it s).1.processed = s.processed ∨
    (runItem author srcDir dstDir it s).1.processed = s.processed + 1 :=
  finishItem_processed_cases _ _ _ _

theorem runLoop_done_processed_le (author : Option String) (srcDir dstDir : String) :
    ∀ (items : List Item) (s s1 : LoopState),
      runLoop author srcDir dstDir items s = .done s1 →
      s1.processed ≤ s.processed + items.length := by
  intro items
  induction items with
  | nil =>
    intro s s1 h
    unfold runLoop at h
    injection h with h
    subst h
    simp
  | cons it rest ih =>
    intro s s1 h
    unfold runLoop at h
    rcases hri : runItem author srcDir dstDir it s with ⟨sa, e⟩
    rw [hri] at h
    cases e with
    | normal =>
      have h1 := ih sa s1 h
      have h2 := runItem_processed_cases author srcDir dstDir it s
      rw [hri] at h2
      simp at h2
      simp only [List.length_cons]
      omega
    | sysExit c => simp at h
    | uncaught => simp at h

theorem runLoop_append_done (author : Option String) (srcDir dstDir : String)
    (xs ys : List Item) :
    ∀ (s s1 : LoopState), runLoop author srcDir dstDir xs s = .done s1 →
      runLoop author srcDir dstDir (xs ++ ys) s
        = runLoop author srcDir dstDir ys s1 := by
  induction xs with
  | nil =>
    intro s s1 h
    unfold runLoop at h
    injection h with h
    subst h
    rfl
  | cons it rest ih =>
    intro s s1 h
    unfold runLoop at h
    rcases hri : runItem author srcDir dstDir it s with ⟨sa, e⟩
    rw [hri] at h
    cases e with
    | normal =>
      have hstep : runLoop author srcDir dstDir (it :: (rest ++ ys)) s
          = runLoop author srcDir dstDir (rest ++ ys) sa := by
        show (match runItem author srcDir dstDir it s with
          | (s1, .normal) => runLoop author srcDir dstDir (rest ++ ys) s1
          | (s1, .sysExit c) => LoopResult.abortedExit c s1
          | (s1, .uncaught) => LoopResult.abortedCrash s1) = _
        rw [hri]
      rw [List.cons_append, hstep]
      exact ih sa s1 h
    | sysExit c => simp at h
    | uncaught => simp at h

theorem runCsvLoop_spec :
    ∀ (items : List CsvItem) (rows : List (List String)) (pc cc : Nat)
      (rows1 : List (List String)) (pc1 cc1 : Nat),
      runCsvLoop items rows pc cc = (rows1, pc1, cc1, none) →
      rows1 = rows ++ items.filterMap csvRowOf ∧
      pc1 = pc + (items.filterMap csvRowOf).length := by
  intro items
  induction items with
  | nil =>
    intro rows pc cc rows1 pc1 cc1 h
    unfold runCsvLoop at h
    injection h with h1 h
    injection h with h2 h
    injection h with h3 _
    subst h1
    subst h2
    simp
  | cons it rest ih =>
    intro rows pc cc rows1 pc1 cc1 h
    unfold runCsvLoop at h
    by_cases ho : it.openFails
    · rw [if_pos ho] at h
      have := ih rows pc cc rows1 pc1 cc1 h
      simp only [List.filterMap_cons, csvRowOf, ho, if_pos, if_true]
      exact this
    · rw [if_neg ho] at h
      cases hpr : parse_response it.store it.raw with
      | fatalExit c =>
        rw [hpr] at h
        injection h with _ h
        injection h with _ h
        injection h with _ h
        simp at h
      | parseError =>
        rw [hpr] at h
        have := ih rows pc (cc + 1) rows1 pc1 cc1 h
        have hnone : csvRowOf it = none := by
          simp [csvRowOf, ho, hpr]
        simp only [List.filterMap_cons, hnone]
        exact this
      | ok t d k =>
        rw [hpr] at h
        have := ih (rows ++ [csvRow it.name t d k]) (pc + 1) (cc + 1)
          rows1 pc1 cc1 h
        have hsome : csvRowOf it = some (csvRow it.name t d k) := by
          simp [csvRowOf, ho, hpr]
        simp only [List.filterMap_cons, hsome]
        constructor
        · rw [this.1, List.append_assoc]
          rfl
        · rw [this.2]
          simp only [List.length_cons]
          omega

/-! ## Claim theorems -/

/-- C1: embed-strategy commit safety.  For every item and step oracle — with
the temporary path fresh and distinct from the source/destination paths, as
`NamedTemporaryFile` guarantees — the temporary file is absent after the
iteration on every exit path (success, parse failure, I/O failure, SystemExit,
uncaught cleanup error), and whenever the commit did not succeed (the
processed counter did not advance, which in this code happens exactly when
the move has not succeeded), both the original source file and the
destination file are unchanged — no residual or partially-written destination
remains. -/
theorem C1_embed_commit_safety (author : Option String) (srcDir dstDir : String)
    (it : Item) (s : LoopState)
    (htv : ∀ p, s.tempVar = some p → fsLookup s.fs p = none)
    (hfresh : fsLookup s.fs it.tempPath = none)
    (htpne : it.tempPath ≠ "")
    (hts : it.tempPath ≠ pjoin srcDir it.name)
    (htd : it.tempPath ≠ pjoin dstDir it.name)
    (hsb : pjoin srcDir it.name ≠ pjoin dstDir it.name ++ "~")
    (hdb : pjoin dstDir it.name ≠ pjoin dstDir it.name ++ "~") :
    fsLookup (runItem author srcDir dstDir it s).1.fs it.tempPath = none ∧
    ((runItem author srcDir dstDir it s).1.processed = s.processed →
      fsLookup (runItem author srcDir dstDir it s).1.fs (pjoin srcDir it.name)
        = fsLookup s.fs (pjoin srcDir it.name) ∧
      fsLookup (runItem author srcDir dstDir it s).1.fs (pjoin dstDir it.name)
        = fsLookup s.fs (pjoin dstDir it.name)) := by
  have h := item_step_master author (pjoin srcDir it.name) (pjoin dstDir it.name)
    it s htv hfresh htpne hts htd hsb hdb
  exact ⟨h.1, h.2.1⟩

/-- C1 witness: an item whose metadata save fails leaves no temp file, and
source and destination are untouched. -/
theorem C1_embed_commit_safety_witness :
    fsLookup (runItem (some "A") "s" "d"
      ⟨"a.jpg", "t1", ⟨false, false, false, false, .content "2024; K",
        .parsed "T" "D" ["k"], true, false⟩⟩
      ⟨[("s/a.jpg", ⟨7, none⟩)], none, 0, 0⟩).1.fs "t1" = none ∧
    fsLookup (runItem (some "A") "s" "d"
      ⟨"a.jpg", "t1", ⟨false, false, false, false, .content "2024; K",
        .parsed "T" "D" ["k"], true, false⟩⟩
      ⟨[("s/a.jpg", ⟨7, none⟩)], none, 0, 0⟩).1.fs "s/a.jpg" = some ⟨7, none⟩ ∧
    fsLookup (runItem (some "A") "s" "d"
      ⟨"a.jpg", "t1", ⟨false, false, false, false, .content "2024; K",
        .parsed "T" "D" ["k"], true, false⟩⟩
      ⟨[("s/a.jpg", ⟨7, none⟩)], none, 0, 0⟩).1.fs "d/a.jpg" = none := by
  have h := C1_embed_commit_safety (some "A") "s" "d"
    ⟨"a.jpg", "t1", ⟨false, false, false, false, .content "2024; K",
      .parsed "T" "D" ["k"], true, false⟩⟩
    ⟨[("s/a.jpg", ⟨7, none⟩)], none, 0, 0⟩
    (fun p hp => Option.noConfusion hp) (by decide) (by decide) (by decide)
    (by decide) (by decide) (by decide)
  obtain ⟨hsu, hdu⟩ := h.2 (by decide)
  exact ⟨h.1, hsu.trans (by decide), hdu.trans (by decide)⟩

/-- C4: embed-strategy success semantics.  When the item's commit succeeds
(the processed counter advanced, which in this code happens exactly when the
move succeeded), the destination file carries the source payload with
`object name`, `caption/abstract`, `keywords` and `by-line` set to the
generated title, description, keywords and the author; the source file is
gone when the source path differs from the destination path; and the source
is never deleted on a failed commit. -/
theorem C4_embed_success_semantics (author : Option String) (srcDir dstDir : String)
    (it : Item) (s : LoopState)
    (htv : ∀ p, s.tempVar = some p → fsLookup s.fs p = none)
    (hfresh : fsLookup s.fs it.tempPath = none)
    (htpne : it.tempPath ≠ "")
    (hts : it.tempPath ≠ pjoin srcDir it.name)
    (htd : it.tempPath ≠ pjoin dstDir it.name)
    (hsb : pjoin srcDir it.name ≠ pjoin dstDir it.name ++ "~")
    (hdb : pjoin dstDir it.name ≠ pjoin dstDir it.name ++ "~") :
    (∀ t d k, it.env.raw = RawOutcome.parsed t d k →
      (runItem author srcDir dstDir it s).1.processed = s.processed + 1 →
      ∀ fdata, fsLookup s.fs (pjoin srcDir it.name) = some fdata →
        fsLookup (runItem author srcDir dstDir it s).1.fs (pjoin dstDir it.name)
          = some ⟨fdata.payload, some ⟨some t, some d, k, author⟩⟩ ∧
        (pjoin srcDir it.name ≠ pjoin dstDir it.name →
          fsLookup (runItem author srcDir dstDir it s).1.fs
            (pjoin srcDir it.name) = none)) ∧
    ((runItem author srcDir dstDir it s).1.processed = s.processed →
      fsLookup (runItem author srcDir dstDir it s).1.fs (pjoin srcDir it.name)
        = fsLookup s.fs (pjoin srcDir it.name)) := by
  have h := item_step_master author (pjoin srcDir it.name) (pjoin dstDir it.name)
    it s htv hfresh htpne hts htd hsb hdb
  exact ⟨h.2.2, fun hp => (h.2.1 hp).1⟩

/-- C4 witness: a successful commit moves the enriched file to the
destination and removes the source. -/
theorem C4_embed_success_semantics_witness :
    fsLookup (runItem (some "A") "s" "d"
      ⟨"a.jpg", "t1", ⟨false, false, false, false, .content "2024; K",
        .parsed "T" "D" ["k1", "k2"], false, false⟩⟩
      ⟨[("s/a.jpg", ⟨7, none⟩)], none, 0, 0⟩).1.fs "d/a.jpg"
      = some ⟨7, some ⟨some "T", some "D", ["k1", "k2"], some "A"⟩⟩ ∧
    fsLookup (runItem (some "A") "s" "d"
      ⟨"a.jpg", "t1", ⟨false, false, false, false, .content "2024; K",
        .parsed "T" "D" ["k1", "k2"], false, false⟩⟩
      ⟨[("s/a.jpg", ⟨7, none⟩)], none, 0, 0⟩).1.fs "s/a.jpg" = none := by
  have h := C4_embed_success_semantics (some "A") "s" "d"
    ⟨"a.jpg", "t1", ⟨false, false, false, false, .content "2024; K",
      .parsed "T" "D" ["k1", "k2"], false, false⟩⟩
    ⟨[("s/a.jpg", ⟨7, none⟩)], none, 0, 0⟩
    (fun p hp => Option.noConfusion hp) (by decide) (by decide) (by decide)
    (by decide) (by decide) (by decide)
  obtain ⟨hd, hs⟩ := h.1 "T" "D" ["k1", "k2"] rfl (by decide) ⟨7, none⟩ (by decide)
  exact ⟨hd, hs (by decide)⟩

/-- C3: empty discovery is fatal.  For both strategies, an empty filtered
file list makes the batch exit with status 1 before any Description Client
call is issued (no service calls, no file-system change, no ledger file),
and this termination mode (`exited`) is distinct from the per-item path,
which ends in a `reported` summary. -/
theorem C3_empty_discovery_fatal (author : Option String) (srcDir dstDir : String)
    (fs : FS) (csvOpenFails : Bool) :
    (add_metadata author srcDir dstDir [] fs).exit = .exited 1 ∧
    (add_metadata author srcDir dstDir [] fs).svcCalls = 0 ∧
    (add_metadata author srcDir dstDir [] fs).fs = fs ∧
    (write_data_to_csv [] csvOpenFails fs).exit = .exited 1 ∧
    (write_data_to_csv [] csvOpenFails fs).svcCalls = 0 ∧
    (write_data_to_csv [] csvOpenFails fs).rows = none :=
  ⟨rfl, rfl, rfl, rfl, rfl, rfl⟩

/-- C8 counterexample: with the IPTC read failing and the XMP read matching a
default-language entry whose stripped text is empty — "both fail or are
empty" in the claim's wording — `get_metadata` returns the empty string, not
none: `iptc_description or xmp_description` evaluates to `''`. -/
theorem C8_counterexample :
    read_iptc_data .err = none ∧ read_xmp_data (.matched "") = some "" ∧
    get_metadata .err (.matched "") = some "" ∧
    get_metadata .err (.matched "") ≠ none :=
  ⟨rfl, rfl, rfl, by decide⟩

/-- C8 (amended): the Caption Extractor attempts IPTC first and XMP second
and returns the first non-empty result — the IPTC value when it is non-empty,
otherwise exactly the XMP reader's result (so an empty matched XMP string is
returned as an empty caption rather than none); it returns none when the
IPTC read yields nothing and the XMP read yields nothing; each reader maps
its own failure to none, so no failure escapes `get_metadata`. -/
theorem C8_caption_priority_amended (i : IptcRead) (x : XmpRead) :
    (∀ s, read_iptc_data i = some s → s ≠ "" → get_metadata i x = some s) ∧
    ((read_iptc_data i = none ∨ read_iptc_data i = some "") →
      get_metadata i x = read_xmp_data x) ∧
    (read_iptc_data i = none → read_xmp_data x = none → get_metadata i x = none) := by
  refine ⟨?_, ?_, ?_⟩
  · intro s hs hne
    unfold get_metadata pyOr
    rw [hs]
    have hie : s.isEmpty = false := by
      cases hq : s.isEmpty
      · rfl
      · exact absurd ((String.isEmpty_iff s).mp hq) hne
    simp [hie]
  · rintro (hn | he)
    · unfold get_metadata pyOr
      rw [hn]
    · unfold get_metadata pyOr
      rw [he]
      rfl
  · intro h1 h2
    unfold get_metadata pyOr
    rw [h1, h2]

/-- C8 witness: a non-empty IPTC caption wins over the XMP entry; a failed
IPTC read falls back to the stripped XMP text; an empty IPTC value with no
XMP match yields none. -/
theorem C8_caption_priority_amended_witness :
    get_metadata (.val (some "existing caption")) (.matched "xmp text")
      = some "existing caption" ∧
    get_metadata .err (.matched " hello ") = some "hello" ∧
    get_metadata (.val (some "")) .noMatch = none := by
  refine ⟨?_, ?_, ?_⟩
  · exact (C8_caption_priority_amended _ _).1 _ rfl (by decide)
  · have h := (C8_caption_priority_amended .err (.matched " hello ")).2.1 (Or.inl rfl)
    rw [h]
    decide
  · have h := (C8_caption_priority_amended (.val (some "")) .noMatch).2.1 (Or.inr rfl)
    rw [h]
    rfl

/-- C9: unconditional backup-sibling deletion.  For every item, state and
step oracle — success, any caught failure, SystemExit, even the uncaught
cleanup crash — the `finally` block's `remove_backup_file(destination_path)`
leaves no file at `destination_path + '~'`, so a pre-existing file with that
name is removed even when the item's commit fails and no destination file
was written. -/
theorem C9_backup_sibling_removed (author : Option String) (srcDir dstDir : String)
    (it : Item) (s : LoopState)
    (hne : pyStrip (pjoin dstDir it.name) ≠ "") :
    fsLookup (runItem author srcDir dstDir it s).1.fs
      (pjoin dstDir it.name ++ "~") = none := by
  unfold runItem
  rcases hrt : runTry author (pjoin srcDir it.name) (pjoin dstDir it.name) it
      s.fs s.tempVar with ⟨fs1, tv1, calls, outcome⟩
  have hbase : fsLookup (remove_backup_file fs1 (pjoin dstDir it.name))
      (pjoin dstDir it.name ++ "~") = none := remove_backup_lookup_self fs1 hne
  cases tv1 with
  | none => simpa [finishItem] using hbase
  | some tp =>
    cases outcome with
    | raisedExit c =>
      simpa [finishItem] using cleanupTemp_lookup_none tp hbase
    | raisedExc =>
      simpa [finishItem] using cleanupTemp_lookup_none tp hbase
    | completed =>
      have h3 := cleanupTemp_lookup_none tp hbase
      simp only [finishItem]
      split
      · exact fsLookup_erase_none _ h3
      · exact h3

/-- C9 witness: a pre-existing `dst/a.jpg~` is gone after an item whose
commit fails (here: the response parse fails), even though no destination
file was written. -/
theorem C9_backup_sibling_removed_witness :
    fsLookup (runItem (some "A") "s" "d"
        ⟨"a.jpg", "t1", ⟨false, false, false, false, .content "2024; K", .malformed,
          false, false⟩⟩
        ⟨[("s/a.jpg", ⟨7, none⟩), ("d/a.jpg~", ⟨3, none⟩)], none, 0, 0⟩).1.fs
      "d/a.jpg~" = none :=
  C9_backup_sibling_removed (some "A") "s" "d" _ _ (by decide)

/-- C6: a missing or unreadable credential store, or contents without the
`"<date>; <key>"` separator, makes `process_photo` exit with status 1 before
the HTTP request is issued; inside the batch this SystemExit is not caught by
the per-item `except Exception`, so the loop aborts at that item (no
unprocessed-count bookkeeping) and `add_metadata` terminates the whole batch
with the non-zero status. -/
theorem C6_credential_failure_fatal (store : KeyStore)
    (h : readApiKey store = none) (author : Option String) (srcDir dstDir : String)
    (it : Item) (hstore : it.env.store = store)
    (hopen : it.env.openFails = false) (htmp : it.env.tmpCreateFails = false)
    (hcopy : it.env.copyFails = false) :
    process_photo store = (.exited 1, false) ∧
    (∀ (s : LoopState) (f : FileData),
      fsLookup s.fs (pjoin srcDir it.name) = some f →
      (runItem author srcDir dstDir it s).2 = .sysExit 1 ∧
      (runItem author srcDir dstDir it s).1.processed = s.processed ∧
      ∀ rest, runLoop author srcDir dstDir (it :: rest) s =
        .abortedExit 1 (runItem author srcDir dstDir it s).1) ∧
    (∀ (fs0 : FS) (f : FileData) rest,
      fsLookup fs0 (pjoin srcDir it.name) = some f →
      (add_metadata author srcDir dstDir (it :: rest) fs0).exit = .exited 1) := by
  have hpp : process_photo store = (.exited 1, false) := by
    simp [process_photo, h]
  have hitem : ∀ (s : LoopState) (f : FileData),
      fsLookup s.fs (pjoin srcDir it.name) = some f →
      (runItem author srcDir dstDir it s).2 = .sysExit 1 ∧
      (runItem author srcDir dstDir it s).1.processed = s.processed := by
    intro s f hf
    have hrt : runTry author (pjoin srcDir it.name) (pjoin dstDir it.name) it
        s.fs s.tempVar
        = (fsInsert s.fs it.tempPath f, some it.tempPath, 1, .raisedExit 1) := by
      simp [runTry, hf, hopen, htmp, hcopy, parse_response, hstore, h,
        fsLookup_insert_insert]
    constructor
    · simp [runItem, hrt, finishItem]
    · simp [runItem, hrt, finishItem]
  have hloop : ∀ (s : LoopState) (f : FileData),
      fsLookup s.fs (pjoin srcDir it.name) = some f →
      ∀ rest, runLoop author srcDir dstDir (it :: rest) s =
        .abortedExit 1 (runItem author srcDir dstDir it s).1 := by
    intro s f hf rest
    obtain ⟨h2, _⟩ := hitem s f hf
    rcases hri : runItem author srcDir dstDir it s with ⟨s1, e⟩
    rw [hri] at h2
    simp only at h2
    subst h2
    simp [runLoop, hri]
  refine ⟨hpp, fun s f hf => ⟨(hitem s f hf).1, (hitem s f hf).2, hloop s f hf⟩,
    fun fs0 f rest hf => ?_⟩
  have := hloop ⟨fs0, none, 0, 0⟩ f hf rest
  simp [add_metadata, this]

/-- C6 witness: store contents lacking the `"; "` separator make the call
exit fatally at the first item of a two-item batch. -/
theorem C6_credential_failure_fatal_witness :
    process_photo (.content "raw-key-no-separator") = (.exited 1, false) ∧
    (add_metadata (some "A") "s" "d"
      [⟨"a.jpg", "t1", ⟨false, false, false, false, .content "raw-key-no-separator",
        .parsed "T" "D" ["k"], false, false⟩⟩,
       ⟨"b.jpg", "t2", ⟨false, false, false, false, .content "raw-key-no-separator",
        .parsed "T" "D" ["k"], false, false⟩⟩]
      [("s/a.jpg", ⟨7, none⟩), ("s/b.jpg", ⟨8, none⟩)]).exit = .exited 1 := by
  have h := C6_credential_failure_fatal (.content "raw-key-no-separator") (by decide)
    (some "A") "s" "d"
    ⟨"a.jpg", "t1", ⟨false, false, false, false, .content "raw-key-no-separator",
      .parsed "T" "D" ["k"], false, false⟩⟩ rfl rfl rfl rfl
  exact ⟨h.1, h.2.2 _ ⟨7, none⟩ _ rfl⟩

/-- C5: batch statistics invariant.  Whenever a batch runs to completion and
reports its summary — in either strategy — the reported processed count plus
the reported unprocessed count equals the number of discovered files. -/
theorem C5_stats_invariant (author : Option String) (srcDir dstDir : String)
    (items : List Item) (fs : FS) (p u : Nat)
    (h : (add_metadata author srcDir dstDir items fs).exit = .reported p u)
    (citems : List CsvItem) (cof : Bool) (cfs : FS) (cp cu : Nat)
    (hc : (write_data_to_csv citems cof cfs).exit = .reported cp cu) :
    p + u = items.length ∧ cp + cu = citems.length := by
  constructor
  · unfold add_metadata at h
    by_cases hemp : items.isEmpty
    · rw [if_pos hemp] at h
      simp at h
    · rw [if_neg hemp] at h
      cases hrl : runLoop author srcDir dstDir items ⟨fs, none, 0, 0⟩ with
      | done s1 =>
        rw [hrl] at h
        simp only [BatchExit.reported.injEq] at h
        obtain ⟨hp, hu⟩ := h
        have hle := runLoop_done_processed_le author srcDir dstDir items _ _ hrl
        simp only at hle
        omega
      | abortedExit c s1 =>
        rw [hrl] at h
        simp at h
      | abortedCrash s1 =>
        rw [hrl] at h
        simp at h
  · unfold write_data_to_csv at hc
    by_cases hemp : citems.isEmpty
    · rw [if_pos hemp] at hc
      simp at hc
    · rw [if_neg hemp] at hc
      by_cases hcof : cof
      · rw [if_pos hcof] at hc
        simp at hc
      · rw [if_neg hcof] at hc
        rcases hcl : runCsvLoop citems [csvHeader] 0 0 with ⟨rows1, pc1, cc1, ex⟩
        rw [hcl] at hc
        cases ex with
        | some c => simp at hc
        | none =>
          simp only [CsvExit.reported.injEq] at hc
          obtain ⟨hp, hu⟩ := hc
          have hs := runCsvLoop_spec citems [csvHeader] 0 0 rows1 pc1 cc1 hcl
          have hlen := List.length_filterMap_le csvRowOf citems
          omega

/-- C5 witness: a two-item embed batch with one parse failure reports 1 + 1
= 2; a two-item ledger batch with one parse failure reports 1 + 1 = 2. -/
theorem C5_stats_invariant_witness : (1 : Nat) + 1 = 2 ∧ (1 : Nat) + 1 = 2 := by
  exact C5_stats_invariant (some "A") "s" "d"
    [⟨"a.jpg", "t1", ⟨false, false, false, false, .content "2024; K",
       .parsed "T" "D" ["k"], false, false⟩⟩,
     ⟨"b.jpg", "t2", ⟨false, false, false, false, .content "2024; K",
       .malformed, false, false⟩⟩]
    [("s/a.jpg", ⟨7, none⟩), ("s/b.jpg", ⟨8, none⟩)] 1 1 (by decide)
    [⟨"a.jpg", false, .content "2024; K", .parsed "T" "D" ["k"]⟩,
     ⟨"b.jpg", false, .content "2024; K", .malformed⟩]
    false [("s/a.jpg", ⟨7, none⟩)] 1 1 (by decide)

/-- C7: ledger row count.  When a ledger batch reports its summary, the CSV
contents are exactly the header row followed by one row per item whose open,
service call and response parse succeeded — `processed_count` rows in total,
failed items contributing none — and the image file system is returned
exactly as it was: this strategy performs no image writes. -/
theorem C7_ledger_rows (items : List CsvItem) (cof : Bool) (fs : FS) (p u : Nat)
    (h : (write_data_to_csv items cof fs).exit = .reported p u) :
    (write_data_to_csv items cof fs).rows
      = some (csvHeader :: items.filterMap csvRowOf) ∧
    (items.filterMap csvRowOf).length = p ∧
    (write_data_to_csv items cof fs).fs = fs := by
  unfold write_data_to_csv at h ⊢
  by_cases hemp : items.isEmpty
  · rw [if_pos hemp] at h
    simp at h
  · rw [if_neg hemp] at h ⊢
    by_cases hcof : cof
    · rw [if_pos hcof] at h
      simp at h
    · rw [if_neg hcof] at h ⊢
      rcases hcl : runCsvLoop items [csvHeader] 0 0 with ⟨rows1, pc1, cc1, ex⟩
      rw [hcl] at h
      cases ex with
      | some c => simp at h
      | none =>
        simp only [CsvExit.reported.injEq] at h
        obtain ⟨hp, hu⟩ := h
        have hs := runCsvLoop_spec items [csvHeader] 0 0 rows1 pc1 cc1 hcl
        refine ⟨?_, ?_, rfl⟩
        · simp only
          rw [hs.1]
          rfl
        · have h2 := hs.2
          omega

/-- C7 witness: three items, the middle one with a malformed response, give
a ledger of the header plus two rows and a processed count of 2. -/
theorem C7_ledger_rows_witness :
    (write_data_to_csv
      [⟨"a.jpg", false, .content "2024; K", .parsed "TA" "DA" ["x", "y"]⟩,
       ⟨"b.jpg", false, .content "2024; K", .malformed⟩,
       ⟨"c.jpg", false, .content "2024; K", .parsed "TC" "DC" ["z"]⟩]
      false [("s/a.jpg", ⟨7, none⟩)]).rows
      = some [["image_name", "title", "description", "keywords"],
              ["a.jpg", "TA", "DA", "x,y"],
              ["c.jpg", "TC", "DC", "z"]] ∧
    ((([⟨"a.jpg", false, .content "2024; K", .parsed "TA" "DA" ["x", "y"]⟩,
        ⟨"b.jpg", false, .content "2024; K", .malformed⟩,
        ⟨"c.jpg", false, .content "2024; K", .parsed "TC" "DC" ["z"]⟩]
       : List CsvItem).filterMap csvRowOf).length = 2) := by
  have h := C7_ledger_rows
    [⟨"a.jpg", false, .content "2024; K", .parsed "TA" "DA" ["x", "y"]⟩,
     ⟨"b.jpg", false, .content "2024; K", .malformed⟩,
     ⟨"c.jpg", false, .content "2024; K", .parsed "TC" "DC" ["z"]⟩]
    false [("s/a.jpg", ⟨7, none⟩)] 2 1 (by decide)
  exact ⟨h.1.trans (by decide), h.2.1⟩

/-- C2 (failing input): the per-item isolation breaks on the very first item
of a batch when that item fails before `temp_image_path` is assigned — here
the temporary-file creation (the start of the commit's temp-copy step)
raises.  The `except Exception` handler catches the error, but the `finally`
block then references the never-assigned local `temp_image_path`, raising an
UnboundLocalError that is caught nowhere: the batch crashes, the second item
is never processed (no service call is ever made), and no summary is
reported — instead of logging and continuing with the next item. -/
theorem C2_first_item_cleanup_crash :
    (add_metadata (some "A") "s" "d"
      [⟨"a.jpg", "t1", ⟨false, true, false, false, .content "2024; K",
         .parsed "T" "D" ["k"], false, false⟩⟩,
       ⟨"b.jpg", "t2", ⟨false, false, false, false, .content "2024; K",
         .parsed "T" "D" ["k"], false, false⟩⟩]
      [("s/a.jpg", ⟨7, none⟩), ("s/b.jpg", ⟨8, none⟩)]).exit = .crashed ∧
    (add_metadata (some "A") "s" "d"
      [⟨"a.jpg", "t1", ⟨false, true, false, false, .content "2024; K",
         .parsed "T" "D" ["k"], false, false⟩⟩,
       ⟨"b.jpg", "t2", ⟨false, false, false, false, .content "2024; K",
         .parsed "T" "D" ["k"], false, false⟩⟩]
      [("s/a.jpg", ⟨7, none⟩), ("s/b.jpg", ⟨8, none⟩)]).svcCalls = 0 ∧
    fsLookup (add_metadata (some "A") "s" "d"
      [⟨"a.jpg", "t1", ⟨false, true, false, false, .content "2024; K",
         .parsed "T" "D" ["k"], false, false⟩⟩,
       ⟨"b.jpg", "t2", ⟨false, false, false, false, .content "2024; K",
         .parsed "T" "D" ["k"], false, false⟩⟩]
      [("s/a.jpg", ⟨7, none⟩), ("s/b.jpg", ⟨8, none⟩)]).fs "s/b.jpg"
      = some ⟨8, none⟩ ∧
    fsLookup (add_metadata (some "A") "s" "d"
      [⟨"a.jpg", "t1", ⟨false, true, false, false, .content "2024; K",
         .parsed "T" "D" ["k"], false, false⟩⟩,
       ⟨"b.jpg", "t2", ⟨false, false, false, false, .content "2024; K",
         .parsed "T" "D" ["k"], false, false⟩⟩]
      [("s/a.jpg", ⟨7, none⟩), ("s/b.jpg", ⟨8, none⟩)]).fs "d/b.jpg" = none := by
  exact ⟨by decide, by decide, by decide, by decide⟩

/-- C10: every service call re-reads the credential store (the read happens
inside `process_photo`, once per item), so a batch aborts fatally at the
first item whose read fails — possibly after earlier items were committed.
If the loop has completed a prefix of items and the next item's store read
yields no key while its earlier steps succeed, the whole loop returns the
fatal abort at that item, with exactly one more service call issued and the
processed count of the prefix preserved. -/
theorem C10_per_item_credential_reread (author : Option String)
    (srcDir dstDir : String) (pre : List Item) (bad : Item) (rest : List Item)
    (s s1 : LoopState)
    (hpre : runLoop author srcDir dstDir pre s = .done s1)
    (hkey : readApiKey bad.env.store = none)
    (hopen : bad.env.openFails = false)
    (htmp : bad.env.tmpCreateFails = false)
    (hcopy : bad.env.copyFails = false)
    (f : FileData)
    (hsrc : fsLookup s1.fs (pjoin srcDir bad.name) = some f) :
    runLoop author srcDir dstDir (pre ++ bad :: rest) s
      = .abortedExit 1 (runItem author srcDir dstDir bad s1).1 ∧
    (runItem author srcDir dstDir bad s1).1.svcCalls = s1.svcCalls + 1 ∧
    (runItem author srcDir dstDir bad s1).1.processed = s1.processed := by
  have hrt : runTry author (pjoin srcDir bad.name) (pjoin dstDir bad.name) bad
      s1.fs s1.tempVar
      = (fsInsert s1.fs bad.tempPath f, some bad.tempPath, 1, .raisedExit 1) := by
    simp [runTry, hsrc, hopen, htmp, hcopy, parse_response_fatal _ hkey,
      fsLookup_insert_insert]
  have h2 : (runItem author srcDir dstDir bad s1).2 = .sysExit 1 := by
    simp [runItem, hrt, finishItem]
  have hpair : runItem author srcDir dstDir bad s1
      = ((runItem author srcDir dstDir bad s1).1, StepExit.sysExit 1) := by
    rw [← h2]
  refine ⟨?_, ?_, ?_⟩
  · rw [runLoop_append_done author srcDir dstDir pre (bad :: rest) s s1 hpre]
    show (match runItem author srcDir dstDir bad s1 with
      | (s2, .normal) => runLoop author srcDir dstDir rest s2
      | (s2, .sysExit c) => LoopResult.abortedExit c s2
      | (s2, .uncaught) => LoopResult.abortedCrash s2)
      = .abortedExit 1 (runItem author srcDir dstDir bad s1).1
    rw [hpair]
  · simp [runItem, hrt, finishItem]
  · simp [runItem, hrt, finishItem]

/-- C10 witness: a two-item batch whose store becomes missing before the
second item's call — the first item is committed (processed count 1), the
batch then aborts with the fatal exit at the second item, which issued one
further credential-reading service call. -/
theorem C10_per_item_credential_reread_witness :
    runLoop (some "A") "s" "d"
      [⟨"a.jpg", "t1", ⟨false, false, false, false, .content "2024; K",
         .parsed "T" "D" ["k"], false, false⟩⟩,
       ⟨"b.jpg", "t2", ⟨false, false, false, false, .missing,
         .parsed "T" "D" ["k"], false, false⟩⟩]
      ⟨[("s/a.jpg", ⟨7, none⟩), ("s/b.jpg", ⟨8, none⟩)], none, 0, 0⟩
      = .abortedExit 1 (runItem (some "A") "s" "d"
          ⟨"b.jpg", "t2", ⟨false, false, false, false, .missing,
            .parsed "T" "D" ["k"], false, false⟩⟩
          (runItem (some "A") "s" "d"
            ⟨"a.jpg", "t1", ⟨false, false, false, false, .content "2024; K",
              .parsed "T" "D" ["k"], false, false⟩⟩
            ⟨[("s/a.jpg", ⟨7, none⟩), ("s/b.jpg", ⟨8, none⟩)], none, 0, 0⟩).1).1 ∧
    (runItem (some "A") "s" "d"
      ⟨"a.jpg", "t1", ⟨false, false, false, false, .content "2024; K",
        .parsed "T" "D" ["k"], false, false⟩⟩
      ⟨[("s/a.jpg", ⟨7, none⟩), ("s/b.jpg", ⟨8, none⟩)], none, 0, 0⟩).1.processed
      = 1 := by
  have hpre : runLoop (some "A") "s" "d"
      [⟨"a.jpg", "t1", ⟨false, false, false, false, .content "2024; K",
         .parsed "T" "D" ["k"], false, false⟩⟩]
      ⟨[("s/a.jpg", ⟨7, none⟩), ("s/b.jpg", ⟨8, none⟩)], none, 0, 0⟩
      = .done ((runItem (some "A") "s" "d"
          ⟨"a.jpg", "t1", ⟨false, false, false, false, .content "2024; K",
            .parsed "T" "D" ["k"], false, false⟩⟩
          ⟨[("s/a.jpg", ⟨7, none⟩), ("s/b.jpg", ⟨8, none⟩)], none, 0, 0⟩).1) := by
    decide
  have h := C10_per_item_credential_reread (some "A") "s" "d"
    [⟨"a.jpg", "t1", ⟨false, false, false, false, .content "2024; K",
       .parsed "T" "D" ["k"], false, false⟩⟩]
    ⟨"b.jpg", "t2", ⟨false, false, false, false, .missing,
      .parsed "T" "D" ["k"], false, false⟩⟩
    []
    ⟨[("s/a.jpg", ⟨7, none⟩), ("s/b.jpg", ⟨8, none⟩)], none, 0, 0⟩
    _ hpre rfl rfl rfl rfl ⟨8, none⟩ (by decide)
  exact ⟨h.1, by decide⟩

end SmartVisionAI
